import Mathlib

/-!
# Verification of the gscrape pagination-and-extraction engine

This file gives a shallow embedding of the core of the `gscrape` repository
(`youtube.go`, `playbooks.go`): the paginated stream orchestrators
(`Youtube.History`, `PlayBooks.MyBooks`), the record extractor
(`parseHistoryItems`, `parseVideoInfo`), the duration parser
(`parseVideoDuration`) and the request building of `MyBooks`.

Modelling conventions:
* HTML documents are modelled as a tree type `HNode`; the helpers of the
  `yhat/scrape` library (`Find`, `FindAll`, `Attr`, `Text`, `ByClass`,
  `ByTag`) are embedded as pre-order traversals over that tree, matching
  the library's depth-first, self-first search order.
* The authenticated transport is a function from request data to an
  outcome.  `html.Parse` applied to an in-memory fragment never fails and
  never returns a nil node, so a fetched envelope is modelled directly as
  its two parsed fragments; a missing `load_more_widget_html` field decodes
  to the empty string, whose parse is the empty document `emptyDoc`.
* The channel-based producer goroutines are modelled as fuel-indexed trace
  functions: they return the list of observable events (page fetches and
  record emissions, in order) plus a terminal status.  Running out of fuel
  is the status `fuelOut`; a loop whose status is `fuelOut` for every fuel
  never terminates.
* Cancellation (`History`'s `cancel` channel) is modelled by an optional
  request time `cancelAt`, measured in trace positions: the `select` at a
  record emission observes cancellation exactly when the current trace
  length has reached `cancelAt`.  This is the schedule in which the
  consumer has stopped accepting records.  `MyBooks` has no cancel channel.
* Go `int`/`int64`/`time.Duration` arithmetic is 64-bit; `wrap64` reduces
  an exact integer to the signed 64-bit value Go computes.
-/

/-! ## HTML document model and the scrape helpers -/

/-- A parsed HTML node: an element with a tag name, attribute list and
children, or a text node (`html.Node` of `golang.org/x/net/html`). -/
inductive HNode where
  | elem (tag : String) (attrs : List (String × String)) (children : List HNode)
  | text (data : String)

/-- All nodes of a tree in pre-order (self first, then children left to
right), the traversal order used by `scrape.Find` and `scrape.FindAll`. -/
def allNodes : HNode → List HNode
  | .text d => [.text d]
  | .elem t a cs => .elem t a cs :: go cs
where go : List HNode → List HNode
  | [] => []
  | c :: rest => allNodes c ++ go rest

/-- `scrape.Attr`: the value of the first attribute named `key`, or `""`
when absent (text nodes have no attributes). -/
def scrapeAttr (n : HNode) (key : String) : String :=
  match n with
  | .text _ => ""
  | .elem _ attrs _ =>
    match attrs.lookup key with
    | some v => v
    | none => ""

/-- Whether a node has an attribute named `key` (used to state what "field
extraction failure" means for attribute reads). -/
def hasAttr (n : HNode) (key : String) : Bool :=
  match n with
  | .text _ => false
  | .elem _ attrs _ => (attrs.lookup key).isSome

/-- `strings.Fields` on a character list: maximal runs of
non-whitespace characters. -/
def fieldsAux : List Char → List Char → List (List Char)
  | [], acc => if acc.isEmpty then [] else [acc.reverse]
  | c :: rest, acc =>
    if c.isWhitespace then
      if acc.isEmpty then fieldsAux rest [] else acc.reverse :: fieldsAux rest []
    else fieldsAux rest (c :: acc)

/-- `scrape.ByClass c`: the node's `class` attribute, split into fields,
contains `c`. -/
def byClass (c : String) (n : HNode) : Bool :=
  (fieldsAux (scrapeAttr n "class").data []).contains c.data

/-- `scrape.ByTag`: the node is an element with the given tag. -/
def byTag (t : String) (n : HNode) : Bool :=
  match n with
  | .elem tag _ _ => tag == t
  | .text _ => false

/-- `scrape.Find`: first node matching `m` in a depth-first, self-first
search. -/
def findNode (m : HNode → Bool) (n : HNode) : Option HNode :=
  (allNodes n).find? m

/-- `scrape.FindAll`: every node matching `m`, in pre-order. -/
def findAllNodes (m : HNode → Bool) (n : HNode) : List HNode :=
  (allNodes n).filter m

/-- `strings.TrimSpace` on a character list. -/
def trimChars (cs : List Char) : List Char :=
  ((cs.dropWhile Char.isWhitespace).reverse.dropWhile Char.isWhitespace).reverse

/-- `strings.TrimSpace`. -/
def goTrimSpace (s : String) : String :=
  ⟨trimChars s.data⟩

/-- Join non-empty strings with single spaces. -/
def joinSpace : List String → String
  | [] => ""
  | [s] => s
  | s :: rest => s ++ " " ++ joinSpace rest

/-- The data of a text node. -/
def textData : HNode → Option String
  | .text d => some d
  | .elem _ _ _ => none

/-- `scrape.Text`: the trimmed data of all descendant text nodes, empty
ones dropped, joined by single spaces, in document order. -/
def scrapeText (n : HNode) : String :=
  joinSpace ((((allNodes n).filterMap textData).map goTrimSpace).filter (· ≠ ""))

/-- The parse of the empty string by `html.Parse`: the parser never fails
on an in-memory fragment and produces an empty document skeleton (it
contains no element with any class, which is all the engine looks at). -/
def emptyDoc : HNode :=
  .elem "html" [] [.elem "head" [] [], .elem "body" [] []]

/-! ## Duration parsing (`parseVideoDuration`, youtube.go) -/

/-- The character class `[0-9]` of the duration regexps. -/
def isDigitCh (c : Char) : Bool :=
  '0' ≤ c && c ≤ '9'

/-- All characters in `[0-9]`. -/
def allDigits (cs : List Char) : Bool :=
  cs.all isDigitCh

/-- Split a character list at every `':'` (so `splitColon cs` has one more
element than `cs` has colons). -/
def splitColon : List Char → List (List Char)
  | [] => [[]]
  | c :: rest =>
    match splitColon rest with
    | [] => [[]]
    | g :: gs => if c = ':' then [] :: g :: gs else (c :: g) :: gs

/-- `shortDurationRegexp = ^([0-9]*):([0-9]*)$`: the two capture groups
when the string matches. -/
def shortDurationMatch (cs : List Char) : Option (List Char × List Char) :=
  match splitColon cs with
  | [a, b] => if allDigits a && allDigits b then some (a, b) else none
  | _ => none

/-- `longDurationRegexp = ^([0-9]*):([0-9]*):([0-9]*)$`: the three capture
groups when the string matches. -/
def longDurationMatch (cs : List Char) : Option (List Char × List Char × List Char) :=
  match splitColon cs with
  | [a, b, c] => if allDigits a && allDigits b && allDigits c then some (a, b, c) else none
  | _ => none

/-- Decimal value of a digit string. -/
def digitsToNat (cs : List Char) : Nat :=
  cs.foldl (fun a c => a * 10 + (c.toNat - 48)) 0

/-- Largest signed 64-bit integer. -/
def maxInt64 : Int := 9223372036854775807

/-- Reduce an exact integer to the signed 64-bit value Go's wrapping
`int`/`int64` arithmetic produces. -/
def wrap64 (n : Int) : Int :=
  (n + 2 ^ 63) % 2 ^ 64 - 2 ^ 63

/-- `strconv.Atoi` as used on a (possibly empty) digit-only capture group,
with its error discarded as in the source: the empty string yields 0 (the
error value), and out-of-range values are clamped to `maxInt64` (the value
`ParseInt` returns alongside its range error). -/
def goAtoiDigits (cs : List Char) : Int :=
  if cs.isEmpty then 0 else min (digitsToNat cs : Int) maxInt64

/-- `time.Second` in nanoseconds (`time.Duration` counts nanoseconds). -/
def timeSecond : Int := 1000000000

/-- `time.Second * time.Duration x` in Go's 64-bit arithmetic. -/
def goMulSecond (x : Int) : Int :=
  wrap64 (timeSecond * x)

/-- `parseVideoDuration` (youtube.go): try the short `mm:ss` regexp, then
the long `hh:mm:ss` regexp, else fail.  The result is a `time.Duration`
in nanoseconds. -/
def parseVideoDuration (duration : String) : Except String Int :=
  match shortDurationMatch duration.data with
  | some (m, s) =>
    .ok (goMulSecond (wrap64 (goAtoiDigits m * 60 + goAtoiDigits s)))
  | none =>
    match longDurationMatch duration.data with
    | some (h, m, s) =>
      .ok (goMulSecond (wrap64 (goAtoiDigits h * 60 * 60 + goAtoiDigits m * 60 + goAtoiDigits s)))
    | none => .error ("unable to parse duration: " ++ duration)

/-! ## Record extraction (`parseVideoInfo`, `parseHistoryItems`) -/

/-- Simplified model of `url.Parse`: succeeds except on ASCII control
characters (no claim depends on the exact error set of `net/url`); the
parsed URL is represented by its source string, `none` being the nil
pointer left by a parse error. -/
def urlParse (s : String) : Option String :=
  if s.data.any (fun c => c.toNat < 32) then none else some s

/-- `YoutubeVideoInfo` (youtube.go): one extracted history record.
`ThumbnailURL` models the `*url.URL` pointer (`none` = nil), `Length` the
`time.Duration` in nanoseconds. -/
structure YoutubeVideoInfo where
  Title : String
  Description : String
  Author : String
  ID : String
  ThumbnailURL : Option String
  Length : Int
  deriving DecidableEq, Repr

/-- `parseVideoInfo` (youtube.go): build one record from one
`yt-lockup-video` container, each field extraction independently optional. -/
def parseVideoInfo (element : HNode) : YoutubeVideoInfo :=
  let id := scrapeAttr element "data-context-item-id"
  let thumbnailURL : Option String :=
    match findNode (byClass "yt-thumb-simple") element with
    | none => none
    | some thumbnailContainer =>
      match findNode (byTag "img") thumbnailContainer with
      | none => none
      | some thumbnailImage =>
        let thumb := scrapeAttr thumbnailImage "data-thumb"
        let thumb := if thumb = "" then scrapeAttr thumbnailImage "src" else thumb
        urlParse thumb
  let length : Int :=
    match findNode (byClass "video-time") element with
    | none => 0
    | some videoTimeElement =>
      match parseVideoDuration (goTrimSpace (scrapeText videoTimeElement)) with
      | .ok d => d
      | .error _ => 0
  let title : String :=
    match findNode (byClass "yt-lockup-title") element with
    | none => ""
    | some linkContainer =>
      match findNode (byTag "a") linkContainer with
      | none => ""
      | some link => goTrimSpace (scrapeText link)
  let author : String :=
    match findNode (byClass "yt-lockup-byline") element with
    | none => ""
    | some linkContainer =>
      match findNode (byTag "a") linkContainer with
      | none => ""
      | some link => goTrimSpace (scrapeText link)
  let description : String :=
    match findNode (byClass "yt-lockup-description") element with
    | none => ""
    | some descBox => goTrimSpace (scrapeText descBox)
  ⟨title, description, author, id, thumbnailURL, length⟩

/-- `parseHistoryItems` (youtube.go): one record per `yt-lockup-video`
container, in document order. -/
def parseHistoryItems (rootNode : HNode) : List YoutubeVideoInfo :=
  (findAllNodes (byClass "yt-lockup-video") rootNode).map parseVideoInfo

/-! ## The `History` stream orchestrator (youtube.go) -/

/-- An observable event of a `History` stream: a page fetch (by URL) or a
record handed to the consumer. -/
inductive YEvent where
  | fetch (url : String)
  | emit (v : YoutubeVideoInfo)
  deriving DecidableEq, Repr

/-- Terminal status of a `History` run: both channels closed without an
error (`done`), cancellation observed (`cancelled`), an error sent on the
error channel (`errored`), a runtime panic in the producer goroutine
(`panicked`), or fuel exhausted before the goroutine finished (`fuelOut`). -/
inductive YStatus where
  | done
  | cancelled
  | errored (e : String)
  | panicked
  | fuelOut
  deriving DecidableEq, Repr

/-- Outcome of `fetchMoreHistory`'s transport-plus-decode step for one
continuation URL: a `Do`/`NewRequest` error, a JSON decode or
content-parse error, or the two parsed fragments.  `more` is the parse of
`load_more_widget_html` (its `html.Parse` error is discarded in the
source, so a nil result is representable, though `html.Parse` of a string
never actually returns nil — a missing field parses to `emptyDoc`). -/
inductive YFetch where
  | doErr (e : String)
  | decodeErr (e : String)
  | ok (more : Option HNode) (content : HNode)

/-- Outcome of the initial `https://www.youtube.com/feed/history` fetch:
`doErr` is a transport failure (`Do` returns a nil response and an error),
`parseErr` an `html.Parse` failure reading the body, `ok` the parsed
document. -/
inductive YFirstFetch where
  | doErr (e : String)
  | parseErr (e : String)
  | ok (root : HNode)

/-- The authenticated transport as seen by `History`: the initial history
page plus a response per continuation URL. -/
structure YTransport where
  first : YFirstFetch
  more : String → YFetch

/-- `fetchMoreHistory` (youtube.go): fetch and decode one continuation
envelope; the URL is the fixed prefix plus the button's href. -/
def fetchMoreHistory (tr : YTransport) (moreHref : String) : YFetch :=
  tr.more ("https://www.youtube.com" ++ moreHref)

/-- Whether the `select` at an emission observes cancellation: the cancel
channel was closed at trace time `cancelAt` and the current time (trace
length) has reached it. -/
def cancelHit (cancelAt : Option Nat) (time : Nat) : Bool :=
  match cancelAt with
  | none => false
  | some t => t ≤ time

/-- The inner emission loop of `History`: hand each record to the consumer
via `select { videoChan <- item / <-cancel }`; returns the extended trace
and whether cancellation was observed. -/
def emitItems (cancelAt : Option Nat) : List YoutubeVideoInfo → List YEvent → List YEvent × Bool
  | [], evs => (evs, false)
  | v :: rest, evs =>
    if cancelHit cancelAt evs.length then (evs, true)
    else emitItems cancelAt rest (evs ++ [.emit v])

/-- Loop state of `History`: the `loadMoreHTML` and `contentHTML`
documents carried between iterations. -/
structure YState where
  loadMoreHTML : Option HNode
  contentHTML : HNode

/-- The `for` loop of `History` (youtube.go): emit the current content's
records, stop if `loadMoreHTML` is nil, look for the `yt-uix-load-more`
button, and fetch the next envelope when it is present.  When the button
is absent the loop continues with unchanged state, exactly as in the
source (there is no `break` in that branch). -/
def historyLoop (tr : YTransport) (cancelAt : Option Nat) :
    Nat → YState → List YEvent → List YEvent × YStatus
  | 0, _, evs => (evs, .fuelOut)
  | fuel + 1, st, evs =>
    match emitItems cancelAt (parseHistoryItems st.contentHTML) evs with
    | (evs', true) => (evs', .cancelled)
    | (evs', false) =>
      match st.loadMoreHTML with
      | none => (evs', .done)
      | some loadMoreHTML =>
        match findNode (byClass "yt-uix-load-more") loadMoreHTML with
        | none => historyLoop tr cancelAt fuel st evs'
        | some loadButton =>
          let morePath := scrapeAttr loadButton "data-uix-load-more-href"
          let u := "https://www.youtube.com" ++ morePath
          match fetchMoreHistory tr morePath with
          | .doErr e => (evs' ++ [.fetch u], .errored e)
          | .decodeErr e => (evs' ++ [.fetch u], .errored e)
          | .ok more content => historyLoop tr cancelAt fuel ⟨more, content⟩ (evs' ++ [.fetch u])

/-- `History` (youtube.go): fetch the first history page, then run the
pagination loop.  A transport error on the first fetch leaves `resp` nil
and the goroutine dereferences `resp.Body`, a panic (the `Do` error is
discarded by the immediate reassignment of `err` from `html.Parse`); an
`html.Parse` error is sent on the error channel. -/
def History (tr : YTransport) (cancelAt : Option Nat) (fuel : Nat) : List YEvent × YStatus :=
  let evs : List YEvent := [.fetch "https://www.youtube.com/feed/history"]
  match tr.first with
  | .doErr _ => (evs, .panicked)
  | .parseErr e => (evs, .errored e)
  | .ok rootNode => historyLoop tr cancelAt fuel ⟨some rootNode, rootNode⟩ evs

/-! ## Play Books data model (`playbooks.go`) -/

/-- The nested `imageLinks` object of `BookInfo`. -/
structure ImageLinks where
  Thumbnail : String
  SmallThumbnail : String
  deriving DecidableEq, Repr

/-- `BookInfo` (playbooks.go).  `UpdateTimestamp` is a UNIX timestamp in
seconds. -/
structure BookInfo where
  Title : String
  Authors : List String
  Publisher : String
  Description : String
  PageCount : Int
  ImageLinks : ImageLinks
  UpdateTimestamp : Int
  ID : String
  Uploaded : Bool
  deriving DecidableEq, Repr

/-- `userInfo` (playbooks.go): the per-user part of a volume. -/
structure userInfo where
  Updated : String
  Uploaded : Bool
  deriving DecidableEq, Repr

/-- `volumeObject` (playbooks.go). -/
structure volumeObject where
  ID : String
  VolumeInfo : BookInfo
  UserInfo : userInfo
  deriving DecidableEq, Repr

/-- `booksResponse` (playbooks.go): one decoded page of the offset API. -/
structure booksResponse where
  Items : List volumeObject
  TotalItems : Int
  deriving DecidableEq, Repr

/-! ## RFC 3339 timestamp parsing (`time.Parse(time.RFC3339, ...)`) -/

/-- Read exactly `k` decimal digits. -/
def readDigits (k : Nat) (cs : List Char) : Option (Nat × List Char) :=
  let ds := cs.take k
  if ds.length == k && allDigits ds then some (digitsToNat ds, cs.drop k) else none

/-- Expect one literal character. -/
def expectChar (c : Char) : List Char → Option (List Char)
  | x :: rest => if x = c then some rest else none
  | [] => none

/-- Skip an optional fractional-second field (`.` followed by at least one
digit); `time.Parse` accepts it even though the RFC 3339 layout does not
show it. -/
def skipFrac : List Char → Option (List Char)
  | '.' :: rest =>
    let ds := rest.takeWhile isDigitCh
    if ds.isEmpty then none else some (rest.drop ds.length)
  | cs => some cs

/-- Parse the `Z07:00` zone suffix: `Z`, or a signed `hh:mm` offset, in
seconds east of UTC; the input must end afterwards. -/
def readOffset : List Char → Option Int
  | ['Z'] => some 0
  | '+' :: rest => do
    let (hh, rest) ← readDigits 2 rest
    let rest ← expectChar ':' rest
    let (mm, rest) ← readDigits 2 rest
    if rest.isEmpty then some ((hh : Int) * 3600 + (mm : Int) * 60) else none
  | '-' :: rest => do
    let (hh, rest) ← readDigits 2 rest
    let rest ← expectChar ':' rest
    let (mm, rest) ← readDigits 2 rest
    if rest.isEmpty then some (-((hh : Int) * 3600 + (mm : Int) * 60)) else none
  | _ => none

/-- Proleptic-Gregorian leap year. -/
def isLeapYear (y : Nat) : Bool :=
  (y % 4 == 0 && !(y % 100 == 0)) || y % 400 == 0

/-- Days in a month. -/
def daysInMonth (y mo : Nat) : Nat :=
  [31, if isLeapYear y then 29 else 28, 31, 30, 31, 30, 31, 31, 30, 31, 30, 31].getD (mo - 1) 0

/-- Days before the first of a month within a year. -/
def daysBeforeMonth (y mo : Nat) : Nat :=
  [0, 31, 59, 90, 120, 151, 181, 212, 243, 273, 304, 334].getD (mo - 1) 0 +
    (if 2 < mo && isLeapYear y then 1 else 0)

/-- UNIX seconds of a civil date-time (UTC).  Day 0 is 1970-01-01; there
are 719162 days from 0001-01-01 to the epoch. -/
def civilToUnix (y mo d hh mi ss : Nat) : Int :=
  let yi : Int := (y : Int) - 1
  let days : Int :=
    365 * yi + yi / 4 - yi / 100 + yi / 400 +
      (daysBeforeMonth y mo : Int) + (d : Int) - 1 - 719162
  days * 86400 + ((hh * 3600 + mi * 60 + ss : Nat) : Int)

/-- `time.Parse(time.RFC3339, s).Unix()` as a partial function: `some`
UNIX seconds on success, `none` on a parse error (where Go returns the
zero `time.Time` and an error). -/
def timeParseRFC3339Unix (s : String) : Option Int := do
  let cs := s.data
  let (y, cs) ← readDigits 4 cs
  let cs ← expectChar '-' cs
  let (mo, cs) ← readDigits 2 cs
  let cs ← expectChar '-' cs
  let (d, cs) ← readDigits 2 cs
  let cs ← expectChar 'T' cs
  let (hh, cs) ← readDigits 2 cs
  let cs ← expectChar ':' cs
  let (mi, cs) ← readDigits 2 cs
  let cs ← expectChar ':' cs
  let (ss, cs) ← readDigits 2 cs
  let cs ← skipFrac cs
  let off ← readOffset cs
  if 1 ≤ mo && mo ≤ 12 && 1 ≤ d && d ≤ daysInMonth y mo && hh ≤ 23 && mi ≤ 59 && ss ≤ 59 then
    some (civilToUnix y mo d hh mi ss - off)
  else none

/-- `time.Time`'s zero value rendered by `Unix()`:
0001-01-01 00:00:00 UTC in UNIX seconds. -/
def zeroTimeUnix : Int := -62135596800

/-! ## The `MyBooks` stream orchestrator (`playbooks.go`) -/

/-- An observable event of a `MyBooks` stream: a page fetch (by its
`startIndex` offset) or a record handed to the consumer. -/
inductive BEvent where
  | fetch (startIndex : Nat)
  | emit (book : BookInfo)
  deriving DecidableEq, Repr

/-- Terminal status of a `MyBooks` loop run. -/
inductive BStatus where
  | done
  | errored (e : String)
  | fuelOut
  deriving DecidableEq, Repr

/-- Outcome of one `MyBooks` page fetch: a `Do` error, an
`ioutil.ReadAll` error, a `json.Unmarshal` error, or a decoded response. -/
inductive BooksFetch where
  | doErr (e : String)
  | readErr (e : String)
  | jsonErr (e : String)
  | ok (resp : booksResponse)

/-- The record `MyBooks` emits for one volume: `VolumeInfo`, with
`UpdateTimestamp` overwritten from `userInfo.Updated` when that string is
non-empty (a failed `time.Parse` leaves the zero `time.Time`, whose
`Unix()` is `zeroTimeUnix`, the parse error being discarded), and `ID` and
`Uploaded` copied from the envelope. -/
def mkBook (volume : volumeObject) : BookInfo :=
  let info := volume.VolumeInfo
  let info :=
    if volume.UserInfo.Updated ≠ "" then
      { info with
        UpdateTimestamp :=
          match timeParseRFC3339Unix volume.UserInfo.Updated with
          | some u => u
          | none => zeroTimeUnix }
    else info
  { info with ID := volume.ID, Uploaded := volume.UserInfo.Uploaded }

/-- The `for` loop of `MyBooks` (playbooks.go): fetch the page at offset
`i`, emit its records, advance `i` by the item count, and stop when `i`
reaches the total re-read from the current page. -/
def myBooksLoop (tr : Nat → BooksFetch) :
    Nat → Nat → List BEvent → List BEvent × BStatus
  | 0, _, evs => (evs, .fuelOut)
  | fuel + 1, i, evs =>
    let evs' := evs ++ [.fetch i]
    match tr i with
    | .doErr e => (evs', .errored e)
    | .readErr e => (evs', .errored e)
    | .jsonErr e => (evs', .errored e)
    | .ok resp =>
      let evs'' := evs' ++ resp.Items.map (fun v => .emit (mkBook v))
      let i' := i + resp.Items.length
      if (i' : Int) ≥ resp.TotalItems then (evs'', .done)
      else myBooksLoop tr fuel i' evs''

/-- The acquire-method name of a defined `BookSource` constant
(`BookSourcePreordered = 0` … `BookSourceUploaded = 6`); `none` for a
value outside the seven constants, where the source panics. -/
def acquireMethodName (s : Int) : Option String :=
  if s = 0 then some "PREORDERED"
  else if s = 1 then some "PREVIOUSLY_RENTED"
  else if s = 2 then some "PUBLIC_DOMAIN"
  else if s = 3 then some "PURCHASED"
  else if s = 4 then some "RENTED"
  else if s = 5 then some "SAMPLE"
  else if s = 6 then some "UPLOADED"
  else none

/-- The fixed part of the `MyBooks` request URL. -/
def baseMyBooksURL (requestKey : String) : String :=
  "https://clients6.google.com/books/v1/volumes/mybooks?maxResults=40&source=ge-books-fe&key="
    ++ requestKey

/-- The request-building loop of `MyBooks`: append one `acquireMethod`
query parameter per source, panicking (with the source's message) on a
value outside the defined constants. -/
def buildMyBooksURL (requestKey : String) (sources : List Int) : Except String String :=
  sources.foldlM
    (fun u s =>
      match acquireMethodName s with
      | some n => .ok (u ++ "&acquireMethod=" ++ n)
      | none => .error ("unknown book source: " ++ toString s))
    (baseMyBooksURL requestKey)

/-- Result of a `MyBooks` call: a panic during request building (before
the goroutine is spawned and before any fetch), or the goroutine's trace
and status. -/
inductive BRun where
  | panicked (msg : String)
  | normal (evs : List BEvent) (st : BStatus)
  deriving DecidableEq, Repr

/-- `MyBooks` (playbooks.go): build the request URL (panicking on an
undefined source), then run the pagination goroutine from offset 0.  Each
fetch uses the built URL plus `&startIndex=<i>`; the trace records the
offset `i`. -/
def MyBooks (requestKey : String) (sources : List Int) (tr : Nat → BooksFetch)
    (fuel : Nat) : BRun :=
  match buildMyBooksURL requestKey sources with
  | .error msg => .panicked msg
  | .ok _ =>
    let r := myBooksLoop tr fuel 0 []
    .normal r.1 r.2

/-! ## Derived notions used in statements and proofs -/

/-- Reassemble a colon-split list (left inverse of `splitColon`). -/
def unsplitColon : List (List Char) → List Char
  | [] => []
  | [g] => g
  | g :: gs => g ++ ':' :: unsplitColon gs

/-- Number of records handed to the consumer in a `MyBooks` trace. -/
def countBEmits (evs : List BEvent) : Nat :=
  (evs.filter (fun e => match e with | .emit _ => true | .fetch _ => false)).length

/-- Every record emission in a `History` trace happens strictly before
trace time `t`. -/
def emitsBefore (t : Nat) (evs : List YEvent) : Prop :=
  ∀ n v, evs[n]? = some (.emit v) → n < t

/-- The query-parameter block `MyBooks` appends: one `&acquireMethod=`
parameter per source, in order. -/
def acquireParams : List Int → String
  | [] => ""
  | s :: rest => "&acquireMethod=" ++ ((acquireMethodName s).getD "") ++ acquireParams rest

/-- The URL-building fold of `MyBooks`, generalized over its accumulator
(used to reason about `buildMyBooksURL` by induction). -/
def buildAcquireFold (u : String) (sources : List Int) : Except String String :=
  sources.foldlM
    (fun u s =>
      match acquireMethodName s with
      | some n => .ok (u ++ "&acquireMethod=" ++ n)
      | none => .error ("unknown book source: " ++ toString s))
    u

/-! ## Concrete sample inputs used by claim instances -/

/-- A minimal `yt-lockup-video` item container. -/
def ytItem (id : String) : HNode :=
  .elem "div" [("class", "yt-lockup-video"), ("data-context-item-id", id)] []

/-- A `yt-uix-load-more` button with the given continuation href. -/
def loadMoreBtn (href : String) : HNode :=
  .elem "button" [("class", "yt-uix-load-more"), ("data-uix-load-more-href", href)] []

/-- A document with the given children. -/
def docOf (children : List HNode) : HNode :=
  .elem "html" [] children

/-- A `video-time` element whose text is not a duration. -/
def abcTimeEl : HNode :=
  .elem "span" [("class", "video-time")] [.text "abc"]

/-- An item container whose duration text is unparsable. -/
def abcItemEl : HNode :=
  .elem "div" [("class", "yt-lockup-video")] [abcTimeEl]

/-- An item container with no extractable fields at all. -/
def bareItemEl : HNode :=
  .elem "div" [("class", "yt-lockup-video")] []

/-- Transport for the missing-`load_more` scenario: the first page only
links to `/m1`, whose envelope has two items and no `load_more` field. -/
def trMissingLoadMore : YTransport where
  first := .ok (docOf [loadMoreBtn "/m1"])
  more := fun u =>
    if u = "https://www.youtube.com/m1" then
      .ok (some emptyDoc) (docOf [ytItem "v1", ytItem "v2"])
    else .doErr "unexpected URL"

/-- Transport whose first history page has no items and no load-more
button (a zero-record page with an absent continuation marker). -/
def trEmptyFirstPage : YTransport where
  first := .ok emptyDoc
  more := fun _ => .doErr "unused"

/-- Books transport returning a page with zero items but a positive
total: the offset never advances. -/
def trBooksZeroProgress : Nat → BooksFetch :=
  fun _ => .ok ⟨[], 5⟩

/-- Transport whose initial history fetch fails (`Do` returns a nil
response and an error). -/
def trFirstFetchFails : YTransport where
  first := .doErr "connection refused"
  more := fun _ => .doErr "unused"

/-- Transport for the cancellation scenario: a first page with no items
and a button to `/m1`, which holds one item and no further pages. -/
def trCancelDemo : YTransport where
  first := .ok (docOf [loadMoreBtn "/m1"])
  more := fun u =>
    if u = "https://www.youtube.com/m1" then
      .ok (some emptyDoc) (docOf [ytItem "w1"])
    else .doErr "unexpected URL"

/-- Transport whose first history page has one item and no load-more
button. -/
def trOnePageNoButton : YTransport where
  first := .ok (docOf [ytItem "u1"])
  more := fun _ => .doErr "unused"

/-- Transport used to instantiate the page-order step equation: `/m2`
serves a second page. -/
def trStepDemo : YTransport where
  first := .ok (docOf [loadMoreBtn "/m2"])
  more := fun u =>
    if u = "https://www.youtube.com/m2" then
      .ok (some emptyDoc) (docOf [ytItem "x2"])
    else .doErr "unexpected URL"

/-- A book volume with every field at its zero value. -/
def bookZero : BookInfo :=
  ⟨"", [], "", "", 0, ⟨"", ""⟩, 0, "", false⟩

/-- A volume whose `userInfo.updated` field is absent. -/
def volSample : volumeObject :=
  ⟨"bid1", bookZero, ⟨"", false⟩⟩

/-- Books transport with a single page whose item count equals its
total. -/
def trOnePageBooks : Nat → BooksFetch :=
  fun i => if i = 0 then .ok ⟨[volSample], 1⟩ else .doErr "unused"

/-- A volume whose `userInfo.updated` field is present but not RFC 3339. -/
def volBadDate : volumeObject :=
  ⟨"bid2", bookZero, ⟨"not-a-date", false⟩⟩

/-- Books transport serving one volume with an unparsable update time. -/
def trBadDateBooks : Nat → BooksFetch :=
  fun i => if i = 0 then .ok ⟨[volBadDate], 1⟩ else .doErr "unused"

/-! ## Lemmas about colon splitting (duration grammar) -/

lemma splitColon_ne_nil : ∀ cs : List Char, splitColon cs ≠ [] := by
  intro cs
  cases cs with
  | nil => simp [splitColon]
  | cons c rest =>
    simp only [splitColon]
    split
    · simp
    · split <;> simp

lemma unsplit_splitColon : ∀ cs : List Char, unsplitColon (splitColon cs) = cs := by
  intro cs
  induction cs with
  | nil => rfl
  | cons c rest ih =>
    simp only [splitColon]
    rcases hsr : splitColon rest with _ | ⟨g, gs⟩
    · exact absurd hsr (splitColon_ne_nil rest)
    · rw [hsr] at ih
      by_cases hc : c = ':'
      · subst hc
        simp only [if_pos rfl, unsplitColon]
        simpa using ih
      · simp only [if_neg hc]
        cases gs with
        | nil =>
          simp only [unsplitColon] at ih ⊢
          rw [ih]
        | cons g2 gs2 =>
          simp only [unsplitColon] at ih ⊢
          rw [List.cons_append, ih]

lemma splitColon_no_colon : ∀ cs : List Char, (∀ c ∈ cs, c ≠ ':') → splitColon cs = [cs] := by
  intro cs
  induction cs with
  | nil => intro _; rfl
  | cons c rest ih =>
    intro h
    have hrest : splitColon rest = [rest] := ih (fun x hx => h x (List.mem_cons_of_mem c hx))
    have hc : c ≠ ':' := h c (List.mem_cons_self c rest)
    simp [splitColon, hrest, hc]

lemma splitColon_append (a rest : List Char) (h : ∀ c ∈ a, c ≠ ':') :
    splitColon (a ++ ':' :: rest) = a :: splitColon rest := by
  induction a with
  | nil =>
    simp only [List.nil_append, splitColon]
    rcases hsr : splitColon rest with _ | ⟨g, gs⟩
    · exact absurd hsr (splitColon_ne_nil rest)
    · simp [hsr]
  | cons c a2 ih =>
    have hc : c ≠ ':' := h c (List.mem_cons_self c a2)
    have ha2 : ∀ x ∈ a2, x ≠ ':' := fun x hx => h x (List.mem_cons_of_mem c hx)
    show splitColon (c :: (a2 ++ ':' :: rest)) = (c :: a2) :: splitColon rest
    simp only [splitColon]
    rw [ih ha2]
    simp [hc]

lemma digit_ne_colon (c : Char) (h : isDigitCh c = true) : c ≠ ':' := by
  intro hc
  subst hc
  exact absurd h (by decide)

lemma allDigits_no_colon (cs : List Char) (h : allDigits cs = true) : ∀ c ∈ cs, c ≠ ':' := by
  intro c hc
  exact digit_ne_colon c (List.all_eq_true.mp h c hc)

lemma shortDurationMatch_inv (cs a b : List Char) (h : shortDurationMatch cs = some (a, b)) :
    splitColon cs = [a, b] ∧ allDigits a = true ∧ allDigits b = true := by
  unfold shortDurationMatch at h
  rcases hs : splitColon cs with _ | ⟨x, _ | ⟨y, _ | ⟨z, w⟩⟩⟩ <;> rw [hs] at h
  · exact absurd h (by simp)
  · exact absurd h (by simp)
  · have h2 : (if (allDigits x && allDigits y) = true then
        some (x, y) else none) = some (a, b) := h
    split_ifs at h2 with hd
    rw [Bool.and_eq_true] at hd
    simp only [Option.some.injEq, Prod.mk.injEq] at h2
    obtain ⟨rfl, rfl⟩ := h2
    exact ⟨rfl, hd.1, hd.2⟩
  · exact absurd h (by simp)

lemma longDurationMatch_inv (cs a b c : List Char)
    (h : longDurationMatch cs = some (a, b, c)) :
    splitColon cs = [a, b, c] ∧ allDigits a = true ∧ allDigits b = true ∧ allDigits c = true := by
  unfold longDurationMatch at h
  rcases hs : splitColon cs with _ | ⟨x, _ | ⟨y, _ | ⟨z, _ | ⟨u, w⟩⟩⟩⟩ <;> rw [hs] at h
  · exact absurd h (by simp)
  · exact absurd h (by simp)
  · exact absurd h (by simp)
  · have h2 : (if (allDigits x && allDigits y && allDigits z) = true then
        some (x, y, z) else none) = some (a, b, c) := h
    split_ifs at h2 with hd
    rw [Bool.and_eq_true, Bool.and_eq_true] at hd
    simp only [Option.some.injEq, Prod.mk.injEq] at h2
    obtain ⟨rfl, rfl, rfl⟩ := h2
    exact ⟨rfl, hd.1.1, hd.1.2, hd.2⟩
  · exact absurd h (by simp)

lemma shortDurationMatch_of_shape (a b : List Char)
    (ha : allDigits a = true) (hb : allDigits b = true) :
    shortDurationMatch (a ++ ':' :: b) = some (a, b) := by
  have hsb : splitColon b = [b] := splitColon_no_colon b (allDigits_no_colon b hb)
  unfold shortDurationMatch
  rw [splitColon_append a b (allDigits_no_colon a ha), hsb]
  simp [ha, hb]

lemma splitColon_long_shape (a b c : List Char)
    (ha : allDigits a = true) (hb : allDigits b = true) (hc : allDigits c = true) :
    splitColon (a ++ ':' :: (b ++ ':' :: c)) = [a, b, c] := by
  have hsc : splitColon c = [c] := splitColon_no_colon c (allDigits_no_colon c hc)
  rw [splitColon_append a (b ++ ':' :: c) (allDigits_no_colon a ha),
    splitColon_append b c (allDigits_no_colon b hb), hsc]

lemma longDurationMatch_of_shape (a b c : List Char)
    (ha : allDigits a = true) (hb : allDigits b = true) (hc : allDigits c = true) :
    longDurationMatch (a ++ ':' :: (b ++ ':' :: c)) = some (a, b, c) := by
  unfold longDurationMatch
  rw [splitColon_long_shape a b c ha hb hc]
  simp [ha, hb, hc]

lemma shortDurationMatch_of_long_shape (a b c : List Char)
    (ha : allDigits a = true) (hb : allDigits b = true) (hc : allDigits c = true) :
    shortDurationMatch (a ++ ':' :: (b ++ ':' :: c)) = none := by
  unfold shortDurationMatch
  rw [splitColon_long_shape a b c ha hb hc]

/-! ## C7: the duration grammar -/

/-- C7 (counterexample): the string `":"` — whose two components are
empty, hence not non-negative integers — does not fail with a parse
error; `parseVideoDuration` accepts it and returns a zero duration,
contradicting the claim that every string not of the shape `mm:ss` or
`hh:mm:ss` with integer components fails. -/
theorem c7_empty_components_accepted : parseVideoDuration ":" = .ok 0 := rfl

/-- C7 (amended): `parseVideoDuration` accepts exactly the shapes
`d*:d*` and `d*:d*:d*` where each component is a *possibly empty* digit
string (an empty component is read as 0, because the regexps use `[0-9]*`
and the `strconv.Atoi` error is discarded); `"4:05"` parses to 245
seconds, `"1:02:03"` to 3723 seconds, `"abc"` fails with a parse error,
and the extractor converts a parse failure into a zero-valued duration
field while still producing the record. -/
theorem c7_duration_grammar_amended :
    (∀ s : String,
      (parseVideoDuration s).isOk = true ↔
        ((∃ a b : List Char, s.data = a ++ ':' :: b ∧ allDigits a = true ∧ allDigits b = true) ∨
          (∃ a b c : List Char, s.data = a ++ ':' :: (b ++ ':' :: c) ∧
            allDigits a = true ∧ allDigits b = true ∧ allDigits c = true)))
      ∧ parseVideoDuration "4:05" = .ok (245 * timeSecond)
      ∧ parseVideoDuration "1:02:03" = .ok (3723 * timeSecond)
      ∧ parseVideoDuration "abc" = .error "unable to parse duration: abc"
      ∧ (∀ el vt, findNode (byClass "video-time") el = some vt →
          (parseVideoDuration (goTrimSpace (scrapeText vt))).isOk = false →
          (parseVideoInfo el).Length = 0) := by
  refine ⟨?_, rfl, rfl, rfl, ?_⟩
  · intro s
    constructor
    · intro h
      unfold parseVideoDuration at h
      rcases hm : shortDurationMatch s.data with _ | ⟨a, b⟩
      · rw [hm] at h
        rcases hl : longDurationMatch s.data with _ | ⟨a, b, c⟩
        · rw [hl] at h
          simp [Except.isOk, Except.toBool] at h
        · right
          obtain ⟨hs, ha, hb, hc⟩ := longDurationMatch_inv _ a b c hl
          refine ⟨a, b, c, ?_, ha, hb, hc⟩
          have hu := unsplit_splitColon s.data
          rw [hs] at hu
          simpa [unsplitColon] using hu.symm
      · left
        obtain ⟨hs, ha, hb⟩ := shortDurationMatch_inv _ a b hm
        refine ⟨a, b, ?_, ha, hb⟩
        have hu := unsplit_splitColon s.data
        rw [hs] at hu
        simpa [unsplitColon] using hu.symm
    · intro h
      rcases h with ⟨a, b, hshape, ha, hb⟩ | ⟨a, b, c, hshape, ha, hb, hc⟩
      · unfold parseVideoDuration
        rw [hshape, shortDurationMatch_of_shape a b ha hb]
        rfl
      · unfold parseVideoDuration
        rw [hshape, shortDurationMatch_of_long_shape a b c ha hb hc,
          longDurationMatch_of_shape a b c ha hb hc]
        rfl
  · intro el vt hfind hfail
    rcases hd : parseVideoDuration (goTrimSpace (scrapeText vt)) with e | d
    · simp only [parseVideoInfo, hfind, hd]
    · rw [hd] at hfail
      simp [Except.isOk, Except.toBool] at hfail

/-- C7 witness: the amended grammar theorem applied to concrete inputs:
the record extracted from an item whose duration text is `"abc"` has a
zero duration, and `"4:05"` is accepted via its short-shape witness. -/
theorem c7_duration_grammar_witness :
    (parseVideoInfo abcItemEl).Length = 0 ∧ (parseVideoDuration "4:05").isOk = true :=
  ⟨c7_duration_grammar_amended.2.2.2.2 abcItemEl abcTimeEl rfl rfl,
    (c7_duration_grammar_amended.1 "4:05").mpr
      (Or.inl ⟨['4'], ['0', '5'], rfl, rfl, rfl⟩)⟩

/-! ## C8: partial-record tolerance of the extractor -/

lemma scrapeAttr_of_hasAttr_false (el : HNode) (key : String)
    (h : hasAttr el key = false) : scrapeAttr el key = "" := by
  cases el with
  | text d => rfl
  | elem t attrs cs =>
    unfold hasAttr at h
    unfold scrapeAttr
    dsimp only at h ⊢
    rcases hl : attrs.lookup key with _ | v
    · simp [hl]
    · rw [hl] at h
      simp at h

/-- C8: each item container yields exactly one record, and every failed
field extraction (absent identifier attribute, absent thumbnail container
or image, absent duration element, absent title or byline container or
link, absent description box) leaves that field at its zero value while
the record is still produced. -/
theorem c8_partial_record_tolerance :
    (∀ doc, (parseHistoryItems doc).length =
        (findAllNodes (byClass "yt-lockup-video") doc).length)
      ∧ (∀ el,
          (hasAttr el "data-context-item-id" = false → (parseVideoInfo el).ID = "")
          ∧ (findNode (byClass "yt-thumb-simple") el = none →
              (parseVideoInfo el).ThumbnailURL = none)
          ∧ (∀ tc, findNode (byClass "yt-thumb-simple") el = some tc →
              findNode (byTag "img") tc = none → (parseVideoInfo el).ThumbnailURL = none)
          ∧ (findNode (byClass "video-time") el = none → (parseVideoInfo el).Length = 0)
          ∧ (findNode (byClass "yt-lockup-title") el = none → (parseVideoInfo el).Title = "")
          ∧ (∀ lc, findNode (byClass "yt-lockup-title") el = some lc →
              findNode (byTag "a") lc = none → (parseVideoInfo el).Title = "")
          ∧ (findNode (byClass "yt-lockup-byline") el = none → (parseVideoInfo el).Author = "")
          ∧ (findNode (byClass "yt-lockup-description") el = none →
              (parseVideoInfo el).Description = "")) := by
  constructor
  · intro doc
    simp [parseHistoryItems]
  · intro el
    refine ⟨?_, ?_, ?_, ?_, ?_, ?_, ?_, ?_⟩
    · intro h
      simp only [parseVideoInfo]
      exact scrapeAttr_of_hasAttr_false el _ h
    · intro h
      simp only [parseVideoInfo, h]
    · intro tc h1 h2
      simp only [parseVideoInfo, h1, h2]
    · intro h
      simp only [parseVideoInfo, h]
    · intro h
      simp only [parseVideoInfo, h]
    · intro lc h1 h2
      simp only [parseVideoInfo, h1, h2]
    · intro h
      simp only [parseVideoInfo, h]
    · intro h
      simp only [parseVideoInfo, h]

/-- C8 witness: the tolerance theorem applied to a container with no
extractable fields: exactly one record is produced and every optional
field is at its zero value. -/
theorem c8_partial_record_tolerance_witness :
    parseHistoryItems (docOf [bareItemEl]) = [parseVideoInfo bareItemEl]
      ∧ (parseVideoInfo bareItemEl).ID = ""
      ∧ (parseVideoInfo bareItemEl).ThumbnailURL = none
      ∧ (parseVideoInfo bareItemEl).Length = 0
      ∧ (parseVideoInfo bareItemEl).Title = ""
      ∧ (parseVideoInfo bareItemEl).Author = ""
      ∧ (parseVideoInfo bareItemEl).Description = "" :=
  ⟨rfl,
    (c8_partial_record_tolerance.2 bareItemEl).1 rfl,
    (c8_partial_record_tolerance.2 bareItemEl).2.1 rfl,
    (c8_partial_record_tolerance.2 bareItemEl).2.2.2.1 rfl,
    (c8_partial_record_tolerance.2 bareItemEl).2.2.2.2.1 rfl,
    (c8_partial_record_tolerance.2 bareItemEl).2.2.2.2.2.2.1 rfl,
    (c8_partial_record_tolerance.2 bareItemEl).2.2.2.2.2.2.2 rfl⟩

/-! ## C10: request building and the book-source panic -/

lemma acquireMethodName_isSome_iff (s : Int) :
    (acquireMethodName s).isSome = true ↔ (0 ≤ s ∧ s ≤ 6) := by
  unfold acquireMethodName
  split_ifs with h0 h1 h2 h3 h4 h5 h6 <;> simp <;> omega

lemma buildMyBooksURL_eq_fold (requestKey : String) (sources : List Int) :
    buildMyBooksURL requestKey sources = buildAcquireFold (baseMyBooksURL requestKey) sources :=
  rfl

lemma buildAcquireFold_cons (u : String) (s0 : Int) (rest : List Int) :
    buildAcquireFold u (s0 :: rest) =
      match acquireMethodName s0 with
      | some n => buildAcquireFold (u ++ "&acquireMethod=" ++ n) rest
      | none => .error ("unknown book source: " ++ toString s0) := by
  rcases ha : acquireMethodName s0 with _ | n <;>
    simp [buildAcquireFold, ha, Bind.bind, Except.bind]

lemma buildAcquireFold_all_defined : ∀ (sources : List Int) (u : String),
    (∀ s ∈ sources, (acquireMethodName s).isSome = true) →
    buildAcquireFold u sources = .ok (u ++ acquireParams sources) := by
  intro sources
  induction sources with
  | nil =>
    intro u _
    show Except.ok u = Except.ok (u ++ acquireParams [])
    simp [acquireParams]
  | cons s0 rest ih =>
    intro u h
    have h0 := h s0 (List.mem_cons_self s0 rest)
    rcases ha : acquireMethodName s0 with _ | n
    · rw [ha] at h0
      simp at h0
    · rw [buildAcquireFold_cons, ha]
      show buildAcquireFold (u ++ "&acquireMethod=" ++ n) rest =
        Except.ok (u ++ acquireParams (s0 :: rest))
      rw [ih (u ++ "&acquireMethod=" ++ n) (fun s hs => h s (List.mem_cons_of_mem s0 hs))]
      simp only [acquireParams, ha, Option.getD_some]
      simp [String.append_assoc]

lemma buildAcquireFold_has_undefined : ∀ (sources : List Int) (u : String),
    (∃ s ∈ sources, acquireMethodName s = none) →
    ∃ msg, buildAcquireFold u sources = .error msg := by
  intro sources
  induction sources with
  | nil =>
    intro u h
    obtain ⟨s, hs, _⟩ := h
    exact absurd hs (List.not_mem_nil s)
  | cons s0 rest ih =>
    intro u h
    rcases ha : acquireMethodName s0 with _ | n
    · exact ⟨"unknown book source: " ++ toString s0, by rw [buildAcquireFold_cons, ha]⟩
    · obtain ⟨s, hs, hnone⟩ := h
      rcases List.mem_cons.mp hs with rfl | hs2
      · rw [ha] at hnone
        exact absurd hnone (by simp)
      · obtain ⟨msg, hmsg⟩ := ih (u ++ "&acquireMethod=" ++ n) ⟨s, hs2, hnone⟩
        refine ⟨msg, ?_⟩
        rw [buildAcquireFold_cons, ha]
        show buildAcquireFold (u ++ "&acquireMethod=" ++ n) rest = Except.error msg
        exact hmsg

lemma acquireMethodName_eq_none_iff (s : Int) :
    acquireMethodName s = none ↔ (s < 0 ∨ 6 < s) := by
  unfold acquireMethodName
  split_ifs with h0 h1 h2 h3 h4 h5 h6 <;> simp <;> omega

/-- C10: a `MyBooks` call whose sources list contains a value outside the
seven defined constants panics during request building, before the
goroutine is spawned and before any fetch; with only defined sources the
request building never panics and appends exactly one `acquireMethod`
query parameter per source. -/
theorem c10_book_source_panic :
    (∀ requestKey sources, (∀ s ∈ sources, 0 ≤ s ∧ s ≤ 6) →
        buildMyBooksURL requestKey sources =
          .ok (baseMyBooksURL requestKey ++ acquireParams sources)
          ∧ ∀ tr fuel, ∃ evs st, MyBooks requestKey sources tr fuel = .normal evs st)
      ∧ (∀ requestKey sources, (∃ s ∈ sources, s < 0 ∨ 6 < s) →
          ∃ msg, buildMyBooksURL requestKey sources = .error msg
            ∧ ∀ tr fuel, MyBooks requestKey sources tr fuel = .panicked msg) := by
  constructor
  · intro requestKey sources h
    have hb : buildMyBooksURL requestKey sources =
        .ok (baseMyBooksURL requestKey ++ acquireParams sources) := by
      rw [buildMyBooksURL_eq_fold]
      exact buildAcquireFold_all_defined sources _
        (fun s hs => (acquireMethodName_isSome_iff s).mpr (h s hs))
    refine ⟨hb, fun tr fuel => ?_⟩
    refine ⟨(myBooksLoop tr fuel 0 []).1, (myBooksLoop tr fuel 0 []).2, ?_⟩
    unfold MyBooks
    rw [hb]
  · intro requestKey sources h
    obtain ⟨s, hs, hout⟩ := h
    obtain ⟨msg, hmsg⟩ := buildAcquireFold_has_undefined sources (baseMyBooksURL requestKey)
      ⟨s, hs, (acquireMethodName_eq_none_iff s).mpr hout⟩
    refine ⟨msg, by rw [buildMyBooksURL_eq_fold]; exact hmsg, fun tr fuel => ?_⟩
    unfold MyBooks
    rw [buildMyBooksURL_eq_fold, hmsg]

/-- C10 witness: a defined-sources list builds its URL with one
`acquireMethod` parameter per source, and the out-of-range source `7`
panics before any fetch. -/
theorem c10_book_source_panic_witness :
    buildMyBooksURL "k" [0, 6] = .ok (baseMyBooksURL "k" ++ acquireParams [0, 6])
      ∧ ∃ msg, buildMyBooksURL "k" [7] = .error msg
          ∧ ∀ tr fuel, MyBooks "k" [7] tr fuel = .panicked msg :=
  ⟨(c10_book_source_panic.1 "k" [0, 6] (by decide)).1,
    c10_book_source_panic.2 "k" [7] ⟨7, by decide, by decide⟩⟩

/-! ## C5: the offset cursor of `MyBooks` -/

lemma bEvent_mem_of_getElem (l : List BEvent) (n : Nat) (e : BEvent)
    (h : l[n]? = some e) : e ∈ l := by
  obtain ⟨hn, rfl⟩ := List.getElem?_eq_some.mp h
  exact List.getElem_mem hn

lemma countBEmits_append (l1 l2 : List BEvent) :
    countBEmits (l1 ++ l2) = countBEmits l1 + countBEmits l2 := by
  simp [countBEmits, List.filter_append]

lemma countBEmits_fetch (i : Nat) : countBEmits [.fetch i] = 0 := rfl

lemma countBEmits_emits (books : List volumeObject) :
    countBEmits (books.map (fun v => .emit (mkBook v))) = books.length := by
  induction books with
  | nil => rfl
  | cons b rest ih =>
    simp only [List.map_cons, countBEmits, List.filter, List.length_cons] at ih ⊢
    omega

lemma bFetchInv_append_no_fetch (evs l2 : List BEvent)
    (h2 : ∀ e ∈ l2, ∀ o, e ≠ BEvent.fetch o)
    (hP : ∀ n o, evs[n]? = some (BEvent.fetch o) → o = countBEmits (evs.take n)) :
    ∀ n o, (evs ++ l2)[n]? = some (BEvent.fetch o) →
      o = countBEmits ((evs ++ l2).take n) := by
  intro n o h
  by_cases hn : n < evs.length
  · rw [List.getElem?_append_left hn] at h
    rw [List.take_append_of_le_length (le_of_lt hn)]
    exact hP n o h
  · push_neg at hn
    rw [List.getElem?_append_right hn] at h
    have he := bEvent_mem_of_getElem _ _ _ h
    exact absurd rfl (h2 _ he o)

lemma bFetchInv_append_fetch (evs : List BEvent) (i : Nat)
    (hi : i = countBEmits evs)
    (hP : ∀ n o, evs[n]? = some (BEvent.fetch o) → o = countBEmits (evs.take n)) :
    ∀ n o, (evs ++ [BEvent.fetch i])[n]? = some (BEvent.fetch o) →
      o = countBEmits ((evs ++ [BEvent.fetch i]).take n) := by
  intro n o h
  by_cases hn : n < evs.length
  · rw [List.getElem?_append_left hn] at h
    rw [List.take_append_of_le_length (le_of_lt hn)]
    exact hP n o h
  · push_neg at hn
    rcases Nat.lt_or_ge n (evs.length + 1) with hn2 | hn2
    · have hne : n = evs.length := by omega
      subst hne
      rw [List.getElem?_concat_length] at h
      have ho : o = i := by
        have := Option.some.inj h
        cases this
        rfl
      subst ho
      rw [List.take_append_of_le_length (le_refl _), List.take_length]
      exact hi
    · rw [List.getElem?_eq_none (by simp; omega)] at h
      cases h

lemma myBooksLoop_fetch_offsets (tr : Nat → BooksFetch) : ∀ (fuel i : Nat) (evs : List BEvent),
    i = countBEmits evs →
    (∀ n o, evs[n]? = some (BEvent.fetch o) → o = countBEmits (evs.take n)) →
    ∀ n o, (myBooksLoop tr fuel i evs).1[n]? = some (BEvent.fetch o) →
      o = countBEmits ((myBooksLoop tr fuel i evs).1.take n) := by
  intro fuel
  induction fuel with
  | zero => intro i evs _ hP n o h; exact hP n o h
  | succ fuel ih =>
    intro i evs hi hP
    have hP1 : ∀ n o, (evs ++ [BEvent.fetch i])[n]? = some (.fetch o) →
        o = countBEmits ((evs ++ [BEvent.fetch i]).take n) :=
      bFetchInv_append_fetch evs i hi hP
    rcases ht : tr i with e | e | e | resp
    · intro n o
      simp only [myBooksLoop, ht]
      exact hP1 n o
    · intro n o
      simp only [myBooksLoop, ht]
      exact hP1 n o
    · intro n o
      simp only [myBooksLoop, ht]
      exact hP1 n o
    · have h2 : ∀ e ∈ resp.Items.map (fun v => BEvent.emit (mkBook v)), ∀ o, e ≠ .fetch o := by
        intro e he o
        obtain ⟨v, _, rfl⟩ := List.mem_map.mp he
        simp
      have hP2 := bFetchInv_append_no_fetch (evs ++ [BEvent.fetch i]) _ h2 hP1
      have hi2 : i + resp.Items.length =
          countBEmits ((evs ++ [BEvent.fetch i]) ++ resp.Items.map (fun v => BEvent.emit (mkBook v))) := by
        rw [countBEmits_append, countBEmits_append, countBEmits_fetch, countBEmits_emits]
        omega
      intro n o
      simp only [myBooksLoop, ht]
      split
      · exact hP2 n o
      · exact ih _ _ hi2 hP2 n o

lemma myBooksLoop_page_step (tr : Nat → BooksFetch) (fuel i : Nat) (evs : List BEvent)
    (resp : booksResponse) (ht : tr i = .ok resp) :
    myBooksLoop tr (fuel + 1) i evs =
      if ((i + resp.Items.length : Nat) : Int) ≥ resp.TotalItems then
        ((evs ++ [.fetch i]) ++ resp.Items.map (fun v => .emit (mkBook v)), .done)
      else
        myBooksLoop tr fuel (i + resp.Items.length)
          ((evs ++ [.fetch i]) ++ resp.Items.map (fun v => .emit (mkBook v))) := by
  simp only [myBooksLoop, ht]

/-- C5: in the `MyBooks` offset stream, (a) every page fetch happens at an
offset equal to the number of records emitted so far, i.e. the sum of the
item counts of the pages already seen; (b) after fetching and emitting a
page, the loop stops (cleanly, with both channels closed and no error)
exactly when the consumed count has reached the `totalItems` re-read from
that same page's response, and otherwise continues from the advanced
offset; (c) a first page whose item count equals its reported total ends
the stream with status `done` after exactly that one fetch. -/
theorem c5_offset_cursor :
    (∀ tr fuel n o, (myBooksLoop tr fuel 0 []).1[n]? = some (BEvent.fetch o) →
        o = countBEmits ((myBooksLoop tr fuel 0 []).1.take n))
      ∧ (∀ tr fuel i evs resp, tr i = .ok resp →
          myBooksLoop tr (fuel + 1) i evs =
            if ((i + resp.Items.length : Nat) : Int) ≥ resp.TotalItems then
              ((evs ++ [.fetch i]) ++ resp.Items.map (fun v => .emit (mkBook v)), .done)
            else
              myBooksLoop tr fuel (i + resp.Items.length)
                ((evs ++ [.fetch i]) ++ resp.Items.map (fun v => .emit (mkBook v))))
      ∧ (∀ tr resp fuel, tr 0 = .ok resp → resp.TotalItems = (resp.Items.length : Int) →
          myBooksLoop tr (fuel + 1) 0 [] =
            (.fetch 0 :: resp.Items.map (fun v => .emit (mkBook v)), .done)) := by
  refine ⟨?_, ?_, ?_⟩
  · intro tr fuel n o
    exact myBooksLoop_fetch_offsets tr fuel 0 [] rfl (by intro n o h; cases h) n o
  · intro tr fuel i evs resp ht
    exact myBooksLoop_page_step tr fuel i evs resp ht
  · intro tr resp fuel ht htot
    rw [myBooksLoop_page_step tr fuel 0 [] resp ht, if_pos (by rw [htot]; simp)]
    simp

/-- C5 witness: a one-page transport whose item count equals its total
terminates with status `done` after exactly one fetch, emitting exactly
that page's record. -/
theorem c5_offset_cursor_witness :
    myBooksLoop trOnePageBooks 3 0 [] = ([.fetch 0, .emit (mkBook volSample)], .done) := by
  have h := c5_offset_cursor.2.2 trOnePageBooks ⟨[volSample], 1⟩ 2 rfl rfl
  simpa using h

/-! ## C9: unparsable update times -/

lemma myBooksLoop_mono (tr : Nat → BooksFetch) : ∀ (fuel i : Nat) (evs : List BEvent),
    evs <+: (myBooksLoop tr fuel i evs).1 := by
  intro fuel
  induction fuel with
  | zero => intro i evs; exact ⟨[], List.append_nil evs⟩
  | succ fuel ih =>
    intro i evs
    rcases ht : tr i with e | e | e | resp
    · exact ⟨[BEvent.fetch i], by simp [myBooksLoop, ht]⟩
    · exact ⟨[BEvent.fetch i], by simp [myBooksLoop, ht]⟩
    · exact ⟨[BEvent.fetch i], by simp [myBooksLoop, ht]⟩
    · rw [myBooksLoop_page_step tr fuel i evs resp ht]
      split
      · exact ⟨[BEvent.fetch i] ++ resp.Items.map (fun v => BEvent.emit (mkBook v)), by simp⟩
      · have base : evs <+: (evs ++ [BEvent.fetch i]) ++
            resp.Items.map (fun v => BEvent.emit (mkBook v)) :=
          ⟨[BEvent.fetch i] ++ resp.Items.map (fun v => BEvent.emit (mkBook v)), by simp⟩
        exact base.trans (ih _ _)

lemma myBooksLoop_emits_member (tr : Nat → BooksFetch) (fuel i : Nat) (evs : List BEvent)
    (resp : booksResponse) (v : volumeObject)
    (ht : tr i = .ok resp) (hv : v ∈ resp.Items) :
    BEvent.emit (mkBook v) ∈ (myBooksLoop tr (fuel + 1) i evs).1 := by
  have hmem : BEvent.emit (mkBook v) ∈ (evs ++ [BEvent.fetch i]) ++
      resp.Items.map (fun w => BEvent.emit (mkBook w)) := by
    refine List.mem_append_right _ ?_
    exact List.mem_map.mpr ⟨v, hv, rfl⟩
  rw [myBooksLoop_page_step tr fuel i evs resp ht]
  split
  · exact hmem
  · obtain ⟨t, htl⟩ := myBooksLoop_mono tr fuel (i + resp.Items.length)
      ((evs ++ [BEvent.fetch i]) ++ resp.Items.map (fun w => BEvent.emit (mkBook w)))
    rw [← htl]
    exact List.mem_append_left _ hmem

/-- C9 (amended): a volume whose textual update time is present but not
parsable in RFC 3339 is still emitted and never fails the record or the
stream, but its `UpdateTimestamp` is not left at its zero value: the
discarded `time.Parse` error leaves the zero `time.Time`, whose `Unix()`
is -62135596800, and that value is stored. -/
theorem c9_update_time_amended :
    (∀ volume : volumeObject, volume.UserInfo.Updated ≠ "" →
        timeParseRFC3339Unix volume.UserInfo.Updated = none →
        mkBook volume = { volume.VolumeInfo with
          UpdateTimestamp := zeroTimeUnix, ID := volume.ID,
          Uploaded := volume.UserInfo.Uploaded })
      ∧ (∀ tr fuel i evs resp volume, tr i = .ok resp → volume ∈ resp.Items →
          BEvent.emit (mkBook volume) ∈ (myBooksLoop tr (fuel + 1) i evs).1) := by
  constructor
  · intro v hne hparse
    unfold mkBook
    dsimp only
    rw [if_pos hne, hparse]
  · intro tr fuel i evs resp volume ht hv
    exact myBooksLoop_emits_member tr fuel i evs resp volume ht hv

/-- C9 (counterexample): a book record whose update time is present but
unparsable is emitted with `UpdateTimestamp = -62135596800` — the
`Unix()` of Go's zero time — not left at the field's zero value 0, even
though the incoming record's field was 0. -/
theorem c9_update_time_counterexample :
    myBooksLoop trBadDateBooks 1 0 [] = ([.fetch 0, .emit (mkBook volBadDate)], .done)
      ∧ (mkBook volBadDate).UpdateTimestamp = -62135596800
      ∧ volBadDate.VolumeInfo.UpdateTimestamp = 0
      ∧ (mkBook volBadDate).UpdateTimestamp ≠ 0 :=
  ⟨rfl, rfl, rfl, by decide⟩

/-- C9 witness: the amended theorem applied to the concrete unparsable
volume. -/
theorem c9_update_time_witness :
    mkBook volBadDate = { volBadDate.VolumeInfo with
      UpdateTimestamp := zeroTimeUnix, ID := volBadDate.ID,
      Uploaded := volBadDate.UserInfo.Uploaded } :=
  c9_update_time_amended.1 volBadDate (by decide) rfl

/-! ## Lemmas about the `History` loop -/

lemma mem_of_getElem_opt {α : Type} (l : List α) (n : Nat) (a : α)
    (h : l[n]? = some a) : a ∈ l := by
  obtain ⟨hn, rfl⟩ := List.getElem?_eq_some.mp h
  exact List.getElem_mem hn

lemma emitItems_none (items : List YoutubeVideoInfo) : ∀ evs : List YEvent,
    emitItems none items evs = (evs ++ items.map YEvent.emit, false) := by
  induction items with
  | nil => intro evs; simp [emitItems]
  | cons v rest ih =>
    intro evs
    simp only [emitItems, cancelHit]
    rw [ih]
    simp

lemma historyLoop_zero_items (tr : YTransport) (cancelAt : Option Nat) :
    ∀ (fuel : Nat) (st : YState) (evs : List YEvent) (lm : HNode),
      st.loadMoreHTML = some lm →
      findNode (byClass "yt-uix-load-more") lm = none →
      parseHistoryItems st.contentHTML = [] →
      historyLoop tr cancelAt fuel st evs = (evs, .fuelOut) := by
  intro fuel
  induction fuel with
  | zero => intro st evs lm _ _ _; rfl
  | succ fuel ih =>
    intro st evs lm hlm hbtn hitems
    have hE : emitItems cancelAt (parseHistoryItems st.contentHTML) evs = (evs, false) := by
      rw [hitems]; rfl
    simp only [historyLoop, hE, hlm, hbtn]
    exact ih st evs lm hlm hbtn hitems

lemma historyLoop_no_button_status (tr : YTransport) :
    ∀ (fuel : Nat) (st : YState) (evs : List YEvent) (lm : HNode),
      st.loadMoreHTML = some lm →
      findNode (byClass "yt-uix-load-more") lm = none →
      (historyLoop tr none fuel st evs).2 = .fuelOut := by
  intro fuel
  induction fuel with
  | zero => intro st evs lm _ _; rfl
  | succ fuel ih =>
    intro st evs lm hlm hbtn
    simp only [historyLoop, emitItems_none, hlm, hbtn]
    exact ih st _ lm hlm hbtn

lemma historyLoop_fetch_step (tr : YTransport) (fuel : Nat) (st : YState) (evs : List YEvent)
    (lm btn : HNode) (more : Option HNode) (content : HNode)
    (hlm : st.loadMoreHTML = some lm)
    (hbtn : findNode (byClass "yt-uix-load-more") lm = some btn)
    (hfetch : tr.more ("https://www.youtube.com" ++ scrapeAttr btn "data-uix-load-more-href") =
      .ok more content) :
    historyLoop tr none (fuel + 1) st evs =
      historyLoop tr none fuel ⟨more, content⟩
        ((evs ++ (parseHistoryItems st.contentHTML).map YEvent.emit) ++
          [.fetch ("https://www.youtube.com" ++ scrapeAttr btn "data-uix-load-more-href")]) := by
  simp only [historyLoop, emitItems_none, hlm, hbtn, fetchMoreHistory, hfetch]

/-! ## C1: a missing `load_more` field does not end the stream -/

/-- C1: on the synthetic envelope with two item markers and no
`load_more` field, the stream does *not* emit exactly two records and
close its channels: because the loop has no exit when the load-more
button is absent, the goroutine never terminates for any amount of fuel,
and it keeps re-emitting the same two records — the trace at fuel 3
already contains each of them twice. -/
theorem c1_missing_load_more_never_terminates :
    (∀ fuel, (History trMissingLoadMore none fuel).2 = .fuelOut)
      ∧ (History trMissingLoadMore none 3).1 =
        [.fetch "https://www.youtube.com/feed/history", .fetch "https://www.youtube.com/m1",
          .emit (parseVideoInfo (ytItem "v1")), .emit (parseVideoInfo (ytItem "v2")),
          .emit (parseVideoInfo (ytItem "v1")), .emit (parseVideoInfo (ytItem "v2"))] := by
  constructor
  · intro fuel
    cases fuel with
    | zero => rfl
    | succ fuel =>
      show (historyLoop trMissingLoadMore none (fuel + 1)
        ⟨some (docOf [loadMoreBtn "/m1"]), docOf [loadMoreBtn "/m1"]⟩
        [.fetch "https://www.youtube.com/feed/history"]).2 = .fuelOut
      rw [historyLoop_fetch_step trMissingLoadMore fuel _ _ (docOf [loadMoreBtn "/m1"])
        (loadMoreBtn "/m1") (some emptyDoc) (docOf [ytItem "v1", ytItem "v2"]) rfl rfl rfl]
      exact historyLoop_no_button_status trMissingLoadMore fuel _ _ emptyDoc rfl rfl
  · decide

/-! ## C2: there is no zero-progress guard -/

/-- C2: a page yielding zero records with a non-advancing cursor does
*not* terminate the stream: the `History` loop spins forever on a first
page with no items and no load-more marker (its trace never grows and its
status is never `done`), and the `MyBooks` loop refetches the page at
offset 0 forever when a page reports zero items but a positive total. -/
theorem c2_zero_progress_never_terminates :
    (∀ fuel, History trEmptyFirstPage none fuel =
        ([.fetch "https://www.youtube.com/feed/history"], .fuelOut))
      ∧ (∀ fuel evs, myBooksLoop trBooksZeroProgress fuel 0 evs =
          (evs ++ List.replicate fuel (.fetch 0), .fuelOut)) := by
  constructor
  · intro fuel
    show historyLoop trEmptyFirstPage none fuel ⟨some emptyDoc, emptyDoc⟩
      [.fetch "https://www.youtube.com/feed/history"] = _
    exact historyLoop_zero_items trEmptyFirstPage none fuel _ _ emptyDoc rfl rfl rfl
  · intro fuel
    induction fuel with
    | zero => intro evs; simp [myBooksLoop]
    | succ fuel ih =>
      intro evs
      rw [myBooksLoop_page_step trBooksZeroProgress fuel 0 evs ⟨[], 5⟩ rfl,
        if_neg (by decide)]
      simp only [List.map_nil, List.append_nil]
      show myBooksLoop trBooksZeroProgress fuel 0 (evs ++ [BEvent.fetch 0]) = _
      rw [ih (evs ++ [BEvent.fetch 0])]
      simp [List.replicate_succ]

/-! ## C3: a transport failure on the first page panics -/

/-- C3: a transport failure on the very first history fetch does not
deliver an error on the error channel: `Do`'s error is immediately
overwritten by the `err` returned from `html.Parse`, and the goroutine
dereferences the nil response's body, panicking — so the stream's
contract of "exactly one error value reaches the consumer" is broken on
the first page. -/
theorem c3_first_page_transport_error_panics :
    ∀ fuel, History trFirstFetchFails none fuel =
      ([.fetch "https://www.youtube.com/feed/history"], .panicked) :=
  fun _ => rfl

/-! ## C6: emission order and duplicate emissions -/

/-- C6 (counterexample): a record can be emitted more than once: on a
first page with one item and no load-more button, the loop re-parses the
same content and hands the same record to the consumer again — the trace
at fuel 2 contains the same emission at two distinct positions. -/
theorem c6_duplicate_emission_counterexample :
    (History trOnePageNoButton none 2).1 =
      [.fetch "https://www.youtube.com/feed/history",
        .emit (parseVideoInfo (ytItem "u1")), .emit (parseVideoInfo (ytItem "u1"))] := by
  decide

/-- C6 (amended): within each loop iteration, all of the current page's
records are emitted, in document order (the pre-order position of their
`yt-lockup-video` containers), before the next page is fetched; records
are therefore emitted in page order and within-page document order.  The
"exactly once" part of the claim fails when a page's load-more marker is
absent (see the counterexample), because the loop then repeats the same
page instead of terminating. -/
theorem c6_page_order_amended :
    ∀ (tr : YTransport) (fuel : Nat) (st : YState) (evs : List YEvent) (lm btn : HNode)
      (more : Option HNode) (content : HNode),
      st.loadMoreHTML = some lm →
      findNode (byClass "yt-uix-load-more") lm = some btn →
      tr.more ("https://www.youtube.com" ++ scrapeAttr btn "data-uix-load-more-href") =
        .ok more content →
      historyLoop tr none (fuel + 1) st evs =
        historyLoop tr none fuel ⟨more, content⟩
          ((evs ++ (parseHistoryItems st.contentHTML).map YEvent.emit) ++
            [.fetch ("https://www.youtube.com" ++ scrapeAttr btn "data-uix-load-more-href")])
        ∧ parseHistoryItems st.contentHTML =
            (findAllNodes (byClass "yt-lockup-video") st.contentHTML).map parseVideoInfo := by
  intro tr fuel st evs lm btn more content hlm hbtn hfetch
  exact ⟨historyLoop_fetch_step tr fuel st evs lm btn more content hlm hbtn hfetch, rfl⟩

/-- C6 witness: the page-order step equation at a concrete one-item
state: the page's records are handed over before the single fetch of
`/m2` happens, and only then does the loop continue from the new page. -/
theorem c6_page_order_witness :
    historyLoop trStepDemo none 1
        ⟨some (docOf [loadMoreBtn "/m2"]), docOf [loadMoreBtn "/m2"]⟩ [] =
      historyLoop trStepDemo none 0 ⟨some emptyDoc, docOf [ytItem "x2"]⟩
        [.fetch "https://www.youtube.com/m2"] :=
  (c6_page_order_amended trStepDemo 0
    ⟨some (docOf [loadMoreBtn "/m2"]), docOf [loadMoreBtn "/m2"]⟩ []
    (docOf [loadMoreBtn "/m2"]) (loadMoreBtn "/m2") (some emptyDoc) (docOf [ytItem "x2"])
    rfl rfl rfl).1

/-! ## C4: cancellation -/

lemma emitItems_mono (cancelAt : Option Nat) (items : List YoutubeVideoInfo) :
    ∀ evs : List YEvent, evs <+: (emitItems cancelAt items evs).1 := by
  induction items with
  | nil => intro evs; exact ⟨[], List.append_nil evs⟩
  | cons v rest ih =>
    intro evs
    simp only [emitItems]
    split
    · exact ⟨[], List.append_nil evs⟩
    · have h1 : evs <+: evs ++ [YEvent.emit v] := ⟨[YEvent.emit v], rfl⟩
      exact h1.trans (ih (evs ++ [YEvent.emit v]))

lemma historyLoop_mono (tr : YTransport) (cancelAt : Option Nat) :
    ∀ (fuel : Nat) (st : YState) (evs : List YEvent),
      evs <+: (historyLoop tr cancelAt fuel st evs).1 := by
  intro fuel
  induction fuel with
  | zero => intro st evs; exact ⟨[], List.append_nil evs⟩
  | succ fuel ih =>
    intro st evs
    rcases hE : emitItems cancelAt (parseHistoryItems st.contentHTML) evs with ⟨evs', b⟩
    have h1 : evs <+: evs' := by
      have h := emitItems_mono cancelAt (parseHistoryItems st.contentHTML) evs
      rw [hE] at h
      exact h
    cases b with
    | true =>
      simp only [historyLoop, hE]
      exact h1
    | false =>
      rcases hlm : st.loadMoreHTML with _ | lm
      · simp only [historyLoop, hE, hlm]
        exact h1
      · rcases hbtn : findNode (byClass "yt-uix-load-more") lm with _ | btn
        · simp only [historyLoop, hE, hlm, hbtn]
          exact h1.trans (ih st evs')
        · rcases hf : fetchMoreHistory tr (scrapeAttr btn "data-uix-load-more-href")
              with e | e | ⟨more, content⟩
          · simp only [historyLoop, hE, hlm, hbtn, hf]
            exact h1.trans ⟨_, rfl⟩
          · simp only [historyLoop, hE, hlm, hbtn, hf]
            exact h1.trans ⟨_, rfl⟩
          · simp only [historyLoop, hE, hlm, hbtn, hf]
            have h2 : evs' <+: evs' ++ [YEvent.fetch ("https://www.youtube.com" ++
                scrapeAttr btn "data-uix-load-more-href")] := ⟨_, rfl⟩
            exact h1.trans (h2.trans (ih _ _))

lemma emitsBefore_append_fetch (t : Nat) (evs : List YEvent) (u : String)
    (h : emitsBefore t evs) : emitsBefore t (evs ++ [.fetch u]) := by
  intro n v hn
  by_cases hlt : n < evs.length
  · rw [List.getElem?_append_left hlt] at hn
    exact h n v hn
  · push_neg at hlt
    rw [List.getElem?_append_right hlt] at hn
    have hm := mem_of_getElem_opt _ _ _ hn
    simp at hm

lemma emitsBefore_emitItems (t : Nat) (items : List YoutubeVideoInfo) :
    ∀ evs : List YEvent, emitsBefore t evs →
      emitsBefore t (emitItems (some t) items evs).1 := by
  induction items with
  | nil => intro evs h; exact h
  | cons v rest ih =>
    intro evs h
    simp only [emitItems]
    split
    · exact h
    · rename_i hcond
      apply ih
      intro n w hn
      by_cases hlt : n < evs.length
      · rw [List.getElem?_append_left hlt] at hn
        exact h n w hn
      · push_neg at hlt
        rcases Nat.lt_or_ge n (evs.length + 1) with h2 | h2
        · have hne : n = evs.length := by omega
          subst hne
          simp only [cancelHit, decide_eq_true_eq] at hcond
          omega
        · rw [List.getElem?_eq_none (by simp; omega)] at hn
          cases hn

lemma emitsBefore_historyLoop (tr : YTransport) (t : Nat) :
    ∀ (fuel : Nat) (st : YState) (evs : List YEvent),
      emitsBefore t evs → emitsBefore t (historyLoop tr (some t) fuel st evs).1 := by
  intro fuel
  induction fuel with
  | zero => intro st evs h; exact h
  | succ fuel ih =>
    intro st evs h
    rcases hE : emitItems (some t) (parseHistoryItems st.contentHTML) evs with ⟨evs', b⟩
    have h1 : emitsBefore t evs' := by
      have h2 := emitsBefore_emitItems t (parseHistoryItems st.contentHTML) evs h
      rw [hE] at h2
      exact h2
    cases b with
    | true =>
      simp only [historyLoop, hE]
      exact h1
    | false =>
      rcases hlm : st.loadMoreHTML with _ | lm
      · simp only [historyLoop, hE, hlm]
        exact h1
      · rcases hbtn : findNode (byClass "yt-uix-load-more") lm with _ | btn
        · simp only [historyLoop, hE, hlm, hbtn]
          exact ih st evs' h1
        · rcases hf : fetchMoreHistory tr (scrapeAttr btn "data-uix-load-more-href")
              with e | e | ⟨more, content⟩
          · simp only [historyLoop, hE, hlm, hbtn, hf]
            exact emitsBefore_append_fetch t evs' _ h1
          · simp only [historyLoop, hE, hlm, hbtn, hf]
            exact emitsBefore_append_fetch t evs' _ h1
          · simp only [historyLoop, hE, hlm, hbtn, hf]
            exact ih _ _ (emitsBefore_append_fetch t evs' _ h1)

lemma historyLoop_step_extends (tr : YTransport) (cancelAt : Option Nat)
    (fuel : Nat) (st : YState) (evs : List YEvent) :
    (emitItems cancelAt (parseHistoryItems st.contentHTML) evs).1 <+:
      (historyLoop tr cancelAt (fuel + 1) st evs).1 := by
  rcases hE : emitItems cancelAt (parseHistoryItems st.contentHTML) evs with ⟨evs', b⟩
  cases b with
  | true =>
    simp only [historyLoop, hE]
    exact ⟨[], List.append_nil _⟩
  | false =>
    rcases hlm : st.loadMoreHTML with _ | lm
    · simp only [historyLoop, hE, hlm]
      exact ⟨[], List.append_nil _⟩
    · rcases hbtn : findNode (byClass "yt-uix-load-more") lm with _ | btn
      · simp only [historyLoop, hE, hlm, hbtn]
        exact historyLoop_mono tr cancelAt fuel st evs'
      · rcases hf : fetchMoreHistory tr (scrapeAttr btn "data-uix-load-more-href")
            with e | e | ⟨more, content⟩
        · simp only [historyLoop, hE, hlm, hbtn, hf]
          exact ⟨_, rfl⟩
        · simp only [historyLoop, hE, hlm, hbtn, hf]
          exact ⟨_, rfl⟩
        · simp only [historyLoop, hE, hlm, hbtn, hf]
          have h1 : evs' <+: evs' ++ [YEvent.fetch ("https://www.youtube.com" ++
              scrapeAttr btn "data-uix-load-more-href")] := ⟨_, rfl⟩
          exact h1.trans (historyLoop_mono tr cancelAt fuel _ _)

lemma emitItems_cancel_eq (t : Nat) (items : List YoutubeVideoInfo) :
    ∀ evs : List YEvent, (emitItems (some t) items evs).2 = false →
      emitItems none items evs = emitItems (some t) items evs := by
  induction items with
  | nil => intro evs _; rfl
  | cons v rest ih =>
    intro evs hb
    by_cases hc : cancelHit (some t) evs.length = true
    · exfalso
      have hL : emitItems (some t) (v :: rest) evs = (evs, true) := by
        simp only [emitItems, if_pos hc]
      rw [hL] at hb
      cases hb
    · have hL : emitItems (some t) (v :: rest) evs =
          emitItems (some t) rest (evs ++ [.emit v]) := by
        simp only [emitItems, if_neg hc]
      have hR : emitItems none (v :: rest) evs =
          emitItems none rest (evs ++ [.emit v]) := rfl
      rw [hL] at hb
      rw [hL, hR]
      exact ih (evs ++ [.emit v]) hb

lemma emitItems_cancel_le (t : Nat) (items : List YoutubeVideoInfo) :
    ∀ evs : List YEvent,
      (emitItems (some t) items evs).1 <+: (emitItems none items evs).1 := by
  induction items with
  | nil => intro evs; exact ⟨[], List.append_nil _⟩
  | cons v rest ih =>
    intro evs
    by_cases hc : cancelHit (some t) evs.length = true
    · have hL : emitItems (some t) (v :: rest) evs = (evs, true) := by
        simp only [emitItems, if_pos hc]
      rw [hL]
      exact emitItems_mono none (v :: rest) evs
    · have hL : emitItems (some t) (v :: rest) evs =
          emitItems (some t) rest (evs ++ [.emit v]) := by
        simp only [emitItems, if_neg hc]
      have hR : emitItems none (v :: rest) evs =
          emitItems none rest (evs ++ [.emit v]) := rfl
      rw [hL, hR]
      exact ih (evs ++ [.emit v])

lemma historyLoop_cancel_le (tr : YTransport) (t : Nat) :
    ∀ (fuel : Nat) (st : YState) (evs : List YEvent),
      (historyLoop tr (some t) fuel st evs).1 <+: (historyLoop tr none fuel st evs).1 := by
  intro fuel
  induction fuel with
  | zero => intro st evs; exact ⟨[], List.append_nil _⟩
  | succ fuel ih =>
    intro st evs
    rcases hE : emitItems (some t) (parseHistoryItems st.contentHTML) evs with ⟨evs', b⟩
    cases b with
    | true =>
      have hL : historyLoop tr (some t) (fuel + 1) st evs = (evs', .cancelled) := by
        simp only [historyLoop, hE]
      rw [hL]
      have h1 : evs' <+: (emitItems none (parseHistoryItems st.contentHTML) evs).1 := by
        have h2 := emitItems_cancel_le t (parseHistoryItems st.contentHTML) evs
        rw [hE] at h2
        exact h2
      exact h1.trans (historyLoop_step_extends tr none fuel st evs)
    | false =>
      have hEq : emitItems none (parseHistoryItems st.contentHTML) evs = (evs', false) := by
        rw [emitItems_cancel_eq t _ evs (by rw [hE]), hE]
      rcases hlm : st.loadMoreHTML with _ | lm
      · have hL : historyLoop tr (some t) (fuel + 1) st evs = (evs', .done) := by
          simp only [historyLoop, hE, hlm]
        have hR : historyLoop tr none (fuel + 1) st evs = (evs', .done) := by
          simp only [historyLoop, hEq, hlm]
        rw [hL, hR]
      · rcases hbtn : findNode (byClass "yt-uix-load-more") lm with _ | btn
        · have hL : historyLoop tr (some t) (fuel + 1) st evs =
              historyLoop tr (some t) fuel st evs' := by
            simp only [historyLoop, hE, hlm, hbtn]
          have hR : historyLoop tr none (fuel + 1) st evs =
              historyLoop tr none fuel st evs' := by
            simp only [historyLoop, hEq, hlm, hbtn]
          rw [hL, hR]
          exact ih st evs'
        · rcases hf : fetchMoreHistory tr (scrapeAttr btn "data-uix-load-more-href")
              with e | e | ⟨more, content⟩
          · have hL : historyLoop tr (some t) (fuel + 1) st evs =
                (evs' ++ [.fetch ("https://www.youtube.com" ++
                  scrapeAttr btn "data-uix-load-more-href")], .errored e) := by
              simp only [historyLoop, hE, hlm, hbtn, hf]
            have hR : historyLoop tr none (fuel + 1) st evs =
                (evs' ++ [.fetch ("https://www.youtube.com" ++
                  scrapeAttr btn "data-uix-load-more-href")], .errored e) := by
              simp only [historyLoop, hEq, hlm, hbtn, hf]
            rw [hL, hR]
          · have hL : historyLoop tr (some t) (fuel + 1) st evs =
                (evs' ++ [.fetch ("https://www.youtube.com" ++
                  scrapeAttr btn "data-uix-load-more-href")], .errored e) := by
              simp only [historyLoop, hE, hlm, hbtn, hf]
            have hR : historyLoop tr none (fuel + 1) st evs =
                (evs' ++ [.fetch ("https://www.youtube.com" ++
                  scrapeAttr btn "data-uix-load-more-href")], .errored e) := by
              simp only [historyLoop, hEq, hlm, hbtn, hf]
            rw [hL, hR]
          · have hL : historyLoop tr (some t) (fuel + 1) st evs =
                historyLoop tr (some t) fuel ⟨more, content⟩
                  (evs' ++ [.fetch ("https://www.youtube.com" ++
                    scrapeAttr btn "data-uix-load-more-href")]) := by
              simp only [historyLoop, hE, hlm, hbtn, hf]
            have hR : historyLoop tr none (fuel + 1) st evs =
                historyLoop tr none fuel ⟨more, content⟩
                  (evs' ++ [.fetch ("https://www.youtube.com" ++
                    scrapeAttr btn "data-uix-load-more-href")]) := by
              simp only [historyLoop, hEq, hlm, hbtn, hf]
            rw [hL, hR]
            exact ih _ _

/-- C4 (counterexample): with cancellation requested from time 0 — before
any event — the run still starts two page fetches (the initial history
page and the `/m1` continuation), because cancellation is polled only at
record-emission points and both pages are reached without crossing one;
so "no new page fetch is started after cancellation is requested" is
false.  The run then observes the cancellation at the first emission
point and ends with no records and no error. -/
theorem c4_fetch_after_cancellation_requested :
    History trCancelDemo (some 0) 3 =
      ([.fetch "https://www.youtube.com/feed/history", .fetch "https://www.youtube.com/m1"],
        .cancelled) := by
  decide

/-- C4 (amended): cancellation is polled at every record-emission point,
so once cancellation is requested at trace time `t`, no record is emitted
at or after `t`; the cancelled run's trace is a prefix of the uncancelled
run's trace (the consumer receives only a finite prefix of the records it
would otherwise have received, and a run that ends by observing
cancellation delivers no error value); but a page fetch may still be
started after cancellation is requested, because the loop does not poll
the cancel channel before fetching (see the counterexample). -/
theorem c4_cancellation_amended :
    ∀ (tr : YTransport) (t fuel : Nat),
      emitsBefore t (History tr (some t) fuel).1
        ∧ (History tr (some t) fuel).1 <+: (History tr none fuel).1 := by
  intro tr t fuel
  have hinit : emitsBefore t [YEvent.fetch "https://www.youtube.com/feed/history"] := by
    intro n v hn
    have hm := mem_of_getElem_opt _ _ _ hn
    simp at hm
  constructor
  · rcases hfst : tr.first with e | e | root
    · simp only [History, hfst]
      exact hinit
    · simp only [History, hfst]
      exact hinit
    · simp only [History, hfst]
      exact emitsBefore_historyLoop tr t fuel _ _ hinit
  · rcases hfst : tr.first with e | e | root
    · simp only [History, hfst]
      exact ⟨[], List.append_nil _⟩
    · simp only [History, hfst]
      exact ⟨[], List.append_nil _⟩
    · simp only [History, hfst]
      exact historyLoop_cancel_le tr t fuel _ _
